import Mathlib

/-
  Shallow embedding of the BeyondMokshaBlogs blog API core:
  the S3 key codec (src/src/services/s3Service.js, src/src/utils/presignedUrl.js),
  the blob store adapter and replacement pipeline (s3Service.js), and the
  blog controllers (src/src/controllers/blogController.js, the id-based variant,
  and the slug-based variant shipped in the repository).

  Strings are modelled as lists of characters so that the JavaScript string and
  regular-expression operations used by the source can be given exact meanings.
-/

namespace BM

abbrev Str := List Char

/-- JavaScript String.prototype.startsWith on the list-of-characters model. -/
def strHasPref : Str → Str → Bool
  | [], _ => true
  | _ :: _, [] => false
  | a :: as, b :: bs => if a = b then strHasPref as bs else false

/-- Leftmost split of a string around the first occurrence of a pattern:
returns the part before and the part after the occurrence, or nothing when the
pattern does not occur.  This is the search underlying the JavaScript
String.prototype.replace with a plain-string pattern. -/
def splitOnFirst (pat : Str) : Str → Option (Str × Str)
  | [] => if pat = [] then some ([], []) else none
  | c :: rest =>
    if strHasPref pat (c :: rest) then some ([], (c :: rest).drop pat.length)
    else
      match splitOnFirst pat rest with
      | some (a, b) => some (c :: a, b)
      | none => none

/-- JavaScript url.replace(pat, two quotes) for a plain-string pattern: removes
the leftmost occurrence of the pattern, or returns the string unchanged when the
pattern does not occur.  The source only ever replaces with the empty string. -/
def replaceFirstStr (pat : Str) (s : Str) : Str :=
  match splitOnFirst pat s with
  | some (a, b) => a ++ b
  | none => s

/-- Consume characters up to and including the first slash; fails when no slash
remains.  Together with the non-slash check on the first character this models
the regular expression fragment consisting of one or more non-slash characters
followed by a slash. -/
def dropThroughSlash : Str → Option Str
  | [] => none
  | c :: rest => if c = '/' then some rest else dropThroughSlash rest

/-- Match of the anchored bucket part of the s3 scheme regex against what
follows the five scheme characters: at least one non-slash character, then a
slash; returns the remainder (the key) on success. -/
def matchBucketSlash : Str → Option Str
  | [] => none
  | c :: rest => if c = '/' then none else dropThroughSlash rest

/-- JavaScript url.replace of the anchored regex stripping the s3 scheme and
bucket (s3Service.js line 206 and presignedUrl.js line 74): when the regex
matches, the match is removed; otherwise the url is returned unchanged.  Only
invoked on urls that start with the five characters of the s3 scheme. -/
def s3UriReplace (url : Str) : Str :=
  match matchBucketSlash (url.drop 5) with
  | some rest => rest
  | none => url

/-- The literal pattern of the amazonaws regex (s3Service.js line 219). -/
def awsPat : Str := (".amazonaws.com/").data

/-- Line terminators, which the dot of a JavaScript regex does not match. -/
def isLineTerm (c : Char) : Bool :=
  c = '\n' || c = '\r' || c = ' ' || c = ' '

/-- Attempted match of the amazonaws regex at the current position: the pattern
must be present here and must be followed by at least one character, all
remaining characters being matched by the dot (hence no line terminators);
returns the capture group. -/
def awsCapture (s : Str) : Option Str :=
  if strHasPref awsPat s then
    let tail := s.drop awsPat.length
    if tail ≠ [] && tail.all (fun c => !isLineTerm c) then some tail else none
  else none

/-- Leftmost match of the amazonaws regex over the whole url, as performed by
JavaScript String.prototype.match. -/
def awsMatchFirst : Str → Option Str
  | [] => none
  | c :: rest =>
    match awsCapture (c :: rest) with
    | some t => some t
    | none => awsMatchFirst rest

/-- Embedding of extractKeyFromUrl (s3Service.js lines 197 to 232).  The first
argument is the S3_CDN_URL environment value, with the empty string standing
for both an unset and an empty variable (both are falsy in the source); the url
argument is an Option, none standing for a null or undefined argument.  A JS
null return is none and a JS string return (possibly empty) is some.  The
source body is wrapped in a try block, but no operation in it can throw on a
string input, so the function is total. -/
def extractKeyFromUrl (cdn : Str) (url : Option Str) : Option Str :=
  match url with
  | none => none
  | some u =>
    if u = [] then none
    else if strHasPref ("s3://").data u then some (s3UriReplace u)
    else if cdn ≠ [] && strHasPref cdn u then some (replaceFirstStr (cdn ++ ['/']) u)
    else
      match awsMatchFirst u with
      | some k => some k
      | none => none

/-- Embedding of extractS3Key (presignedUrl.js lines 63 to 100), transcribed
separately from its own source text; the body coincides with the one in the
blob store adapter. -/
def extractS3Key (cdn : Str) (contentUrl : Option Str) : Option Str :=
  match contentUrl with
  | none => none
  | some u =>
    if u = [] then none
    else if strHasPref ("s3://").data u then some (s3UriReplace u)
    else if cdn ≠ [] && strHasPref cdn u then some (replaceFirstStr (cdn ++ ['/']) u)
    else
      match awsMatchFirst u with
      | some k => some k
      | none => none

/-! Node path.extname, used by uploadBlogCoverImage to keep the file extension
of the uploaded cover image. -/

/-- Embedding of Node path.extname: the portion of the last path segment from
its last dot to the end; the empty string when the segment has no dot or when
its only leading character is a dot. -/
def extname (s : Str) : Str :=
  let revBase := (s.reverse.takeWhile (fun c => c ≠ '/'))
  let revSuf := revBase.takeWhile (fun c => c ≠ '.')
  if revSuf.length = revBase.length then []
  else if revSuf.length + 1 = revBase.length then []
  else '.' :: revSuf.reverse

/-! The object store.  Blob contents are abstracted as natural numbers; the
store is a finite map from keys to blob contents, and every provider call is
additionally recorded in an operation trace so that the ordering guarantees of
the replacement pipeline can be stated. -/

abbrev Store := List (Str × Nat)

def storeGet : Store → Str → Option Nat
  | [], _ => none
  | (k, v) :: rest, key => if k = key then some v else storeGet rest key

def storeDel : Store → Str → Store
  | [], _ => []
  | (k, v) :: rest, key =>
    if k = key then storeDel rest key else (k, v) :: storeDel rest key

/-- An S3 put overwrites silently when the key already exists. -/
def storePut (st : Store) (key : Str) (v : Nat) : Store :=
  (key, v) :: storeDel st key

/-- One provider call, as issued by the blob store adapter: a HeadObjectCommand,
a DeleteObjectCommand or a PutObjectCommand. -/
inductive S3Op where
  | head (key : Str)
  | del (key : Str)
  | put (key : Str)
deriving DecidableEq

structure S3State where
  store : Store
  trace : List S3Op
deriving DecidableEq

/-- Embedding of uploadFile (s3Service.js lines 34 to 57) on the happy path:
stores the object under the key and returns the locator in the canonical s3
scheme form built from the configured bucket.  The contentType argument is
forwarded to the provider only and does not influence the key or the locator. -/
def uploadFile (bucket : Str) (st : S3State) (fileBuffer : Nat) (key : Str)
    (contentType : Str) : S3State × Str :=
  let _ := contentType
  ({ store := storePut st.store key fileBuffer, trace := st.trace ++ [.put key] },
   ("s3://").data ++ bucket ++ ['/'] ++ key)

/-- Embedding of deleteFile (s3Service.js lines 64 to 78) on the happy path. -/
def deleteFile (st : S3State) (key : Str) : S3State :=
  { store := storeDel st.store key, trace := st.trace ++ [.del key] }

/-- Embedding of fileExists (s3Service.js lines 85 to 100) on the happy path:
issues a HeadObjectCommand and reports whether the object exists. -/
def fileExists (st : S3State) (key : Str) : S3State × Bool :=
  ({ st with trace := st.trace ++ [.head key] }, (storeGet st.store key).isSome)

/-- Embedding of uploadBlogContent (s3Service.js lines 110 to 114): the key is
the namespace, the blog reference and the original file name as provided by the
user.  The blog id argument is the string interpolated into the key template
(the decimal rendering of a numeric id, or the slug in the slug-based
controller). -/
def uploadBlogContent (bucket : Str) (st : S3State) (contentBuffer : Nat)
    (blogId : Str) (originalFilename : Str) (contentType : Str) : S3State × Str :=
  let key := ("blogs/").data ++ blogId ++ ['/'] ++ originalFilename
  uploadFile bucket st contentBuffer key contentType

/-- Embedding of uploadBlogCoverImage (s3Service.js lines 124 to 128): the key
keeps only the extension of the original name, behind the literal cover role
segment. -/
def uploadBlogCoverImage (bucket : Str) (st : S3State) (imageBuffer : Nat)
    (blogId : Str) (originalName : Str) (mimeType : Str) : S3State × Str :=
  let extension := extname originalName
  let key := ("blogs/").data ++ blogId ++ ("/cover").data ++ extension
  uploadFile bucket st imageBuffer key mimeType

/-- Embedding of replaceBlogContent (s3Service.js lines 243 to 252) on the
happy path: extract the key of the old locator; when a truthy key was extracted
and the object exists, delete it; then upload the new bytes under the key
derived from the blog reference and the original file name.  The existence
check is only issued when the extracted key is truthy, mirroring the
short-circuit conjunction in the source. -/
def replaceBlogContent (cdn bucket : Str) (st : S3State) (oldUrl : Option Str)
    (newContentBuffer : Nat) (blogId : Str) (originalFilename : Str)
    (contentType : Str) : S3State × Str :=
  let st1 :=
    match extractKeyFromUrl cdn oldUrl with
    | some k =>
      if k = [] then st
      else
        let (st2, ex) := fileExists st k
        if ex then deleteFile st2 k else st2
    | none => st
  uploadBlogContent bucket st1 newContentBuffer blogId originalFilename contentType

/-- Embedding of replaceBlogCoverImage (s3Service.js lines 263 to 272) on the
happy path, with the same delete-then-upload sequencing as the content slot. -/
def replaceBlogCoverImage (cdn bucket : Str) (st : S3State) (oldUrl : Option Str)
    (newImageBuffer : Nat) (blogId : Str) (originalName : Str)
    (mimeType : Str) : S3State × Str :=
  let st1 :=
    match extractKeyFromUrl cdn oldUrl with
    | some k =>
      if k = [] then st
      else
        let (st2, ex) := fileExists st k
        if ex then deleteFile st2 k else st2
    | none => st
  uploadBlogCoverImage bucket st1 newImageBuffer blogId originalName mimeType

/-! Failure-tolerant cleanup model.  The permanent-deletion pipeline must hold
for every behaviour of the provider, so its provider calls are parameterised by
an oracle deciding which calls suffer a transport failure.  An exception is an
error value carrying the state reached so far, so that the catch block of the
source can resume with it. -/

structure S3Oracle where
  headOk : Str → Bool
  delOk : Str → Bool

/-- fileExists under the oracle: a HeadObjectCommand either reports presence or
absence of the object, or fails with a transport error that fileExists
rethrows (only a NotFound error is converted to false in the source). -/
def fileExistsE (o : S3Oracle) (st : S3State) (key : Str) :
    Except (Str × S3State) (Bool × S3State) :=
  let st1 : S3State := { st with trace := st.trace ++ [.head key] }
  if o.headOk key then .ok ((storeGet st.store key).isSome, st1)
  else .error (("S3 head error").data, st1)

/-- deleteFile under the oracle: a failed DeleteObjectCommand is rethrown by
deleteFile as an error (s3Service.js line 76) and leaves the object in place. -/
def deleteFileE (o : S3Oracle) (st : S3State) (key : Str) :
    Except (Str × S3State) (Unit × S3State) :=
  if o.delOk key then .ok ((), deleteFile st key)
  else .error (("Failed to delete file from S3").data,
               { st with trace := st.trace ++ [.del key] })

/-- The legacy fallback loops of deleteBlogFiles: probe each candidate key and
delete it when present; any thrown error aborts the remaining iterations. -/
def deleteIfExistsLoop (o : S3Oracle) : S3State → List Str → Except (Str × S3State) S3State
  | st, [] => .ok st
  | st, k :: rest =>
    match fileExistsE o st k with
    | .error e => .error e
    | .ok (true, st1) =>
      match deleteFileE o st1 k with
      | .error e => .error e
      | .ok (_, st2) => deleteIfExistsLoop o st2 rest
    | .ok (false, st1) => deleteIfExistsLoop o st1 rest

/-- The url-guided branch of deleteBlogFiles: extract the key from the given
locator and, when a truthy key came out and the object exists, delete it; an
unresolvable locator means nothing to clean up. -/
def deleteByUrl (o : S3Oracle) (cdn : Str) (st : S3State) (url : Str) :
    Except (Str × S3State) S3State :=
  match extractKeyFromUrl cdn (some url) with
  | some k =>
    if k = [] then .ok st
    else
      match fileExistsE o st k with
      | .error e => .error e
      | .ok (true, st1) =>
        match deleteFileE o st1 k with
        | .error e => .error e
        | .ok (_, st2) => .ok st2
      | .ok (false, st1) => .ok st1
  | none => .ok st

/-- The legacy content keys probed when no content url is supplied
(s3Service.js lines 148 to 152). -/
def legacyContentKeys (blogId : Str) : List Str :=
  [("blogs/").data ++ blogId ++ ("/content.html").data,
   ("blogs/").data ++ blogId ++ ("/content.md").data,
   ("blogs/").data ++ blogId ++ ("/content.docx").data]

/-- The cover extensions probed when no cover url is supplied (s3Service.js
line 171). -/
def coverImageExtensions : List Str :=
  [(".jpg").data, (".jpeg").data, (".png").data,
   (".webp").data, (".gif").data, (".svg").data]

/-- Embedding of deleteBlogFiles (s3Service.js lines 137 to 186).  The whole
body runs under one try block whose catch logs and deliberately does not
rethrow, so the function completes normally for every oracle; an error thrown
by a content-side call skips the cover side, exactly as in the source. -/
def deleteBlogFiles (o : S3Oracle) (cdn : Str) (st : S3State) (blogId : Str)
    (contentUrl coverImageUrl : Option Str) : S3State :=
  let contentPhase : Except (Str × S3State) S3State :=
    match contentUrl with
    | some cu => deleteByUrl o cdn st cu
    | none => deleteIfExistsLoop o st (legacyContentKeys blogId)
  let body : Except (Str × S3State) S3State :=
    match contentPhase with
    | .error e => .error e
    | .ok st1 =>
      match coverImageUrl with
      | some cv => deleteByUrl o cdn st1 cv
      | none =>
        deleteIfExistsLoop o st1
          (coverImageExtensions.map
            (fun ext => ("blogs/").data ++ blogId ++ ("/cover").data ++ ext))
  match body with
  | .ok st2 => st2
  | .error (_, st2) => st2

/-! The temporary-access URL issuer (presignedUrl.js). -/

/-- The value produced by getSignedUrl, abstracted to the data that determines
it: the bucket and key of the GetObjectCommand and the expiry in seconds. -/
structure SignedUrl where
  bucket : Str
  key : Str
  expiresIn : Nat
deriving DecidableEq

/-- Embedding of generatePresignedUrl (presignedUrl.js lines 24 to 52).  The
source computes the key as extractS3Key(s3Url) short-circuit-or s3Url, so a
null result, and also an empty-string result, of the extraction falls back to
the raw input used verbatim as the key.  Errors thrown inside are rethrown by
the catch with a wrapping message. -/
def generatePresignedUrl (cdn bucket : Str) (s3Url : Option Str) (expiresIn : Nat) :
    Except Str SignedUrl :=
  let wrap (m : Str) : Str := ("Failed to generate presigned URL: ").data ++ m
  match s3Url with
  | none => .error (wrap ("S3 URL is required").data)
  | some u =>
    if u = [] then .error (wrap ("S3 URL is required").data)
    else
      let key : Str :=
        match extractS3Key cdn (some u) with
        | some k => if k = [] then u else k
        | none => u
      if key = [] then .error (wrap ("Could not extract S3 key from URL").data)
      else .ok ⟨bucket, key, expiresIn⟩

/-! The blog record and the record store.  One record type carries the fields
of both controller variants; timestamps are abstract naturals and the database
is the list of rows, with the unique-key lookups returning the first match. -/

structure Blog where
  id : Nat
  slug : Str
  title : Str
  summary : Option Str
  tags : List Str
  contentUrl : Str
  coverImageUrl : Option Str
  readTime : Option Nat
  views : Nat
  likes : Nat
  status : Str
  createdAt : Nat
  deletedAt : Option Nat
deriving DecidableEq

def dbFindById : List Blog → Nat → Option Blog
  | [], _ => none
  | b :: rest, i => if b.id = i then some b else dbFindById rest i

def dbFindBySlug : List Blog → Str → Option Blog
  | [], _ => none
  | b :: rest, s => if b.slug = s then some b else dbFindBySlug rest s

def dbDeleteById : List Blog → Nat → List Blog
  | [], _ => []
  | b :: rest, i => if b.id = i then dbDeleteById rest i else b :: dbDeleteById rest i

/-- The views increment issued by the read paths, an update of the row with the
given id. -/
def dbIncViews : List Blog → Nat → List Blog
  | [], _ => []
  | b :: rest, i =>
    if b.id = i then { b with views := b.views + 1 } :: rest
    else b :: dbIncViews rest i

/-- Decimal rendering of a numeric id, as interpolated into key templates. -/
def natStr (n : Nat) : Str := (Nat.repr n).data

/-- The outcome of a controller call: the status code with the response data on
success, or the status code alone on an error response. -/
inductive ApiOut (α : Type) where
  | success (code : Nat) (data : α)
  | failure (code : Nat)
deriving DecidableEq

def dbUpdateById : List Blog → Nat → Blog → List Blog
  | [], _, _ => []
  | b :: rest, i, nb => if b.id = i then nb :: rest else b :: dbUpdateById rest i nb

/-! List-query machinery shared by the two controller variants: the parsed
query-string fields, the case-insensitive contains of the relational engine and
the newest-first ordering. -/

structure ListQuery where
  page : Nat
  limit : Nat
  tags : List Str
  search : Option Str
  status : Option Str
deriving DecidableEq

def toLowerStr (s : Str) : Str := s.map Char.toLower

/-- Case-insensitive substring test, the contains filter with insensitive mode. -/
def containsCI (s pat : Str) : Bool :=
  (splitOnFirst (toLowerStr pat) (toLowerStr s)).isSome

/-- The hasSome tag filter: the record matches when it carries at least one of
the requested tags; an empty request list means no tag condition is added. -/
def tagsCond (qtags : List Str) (b : Blog) : Bool :=
  qtags.isEmpty || qtags.any (fun t => b.tags.contains t)

def insertByCreatedDesc (b : Blog) : List Blog → List Blog
  | [] => [b]
  | c :: rest =>
    if b.createdAt ≤ c.createdAt then c :: insertByCreatedDesc b rest
    else b :: c :: rest

/-- The orderBy createdAt desc clause of the list queries. -/
def sortByCreatedDesc : List Blog → List Blog
  | [] => []
  | b :: rest => insertByCreatedDesc b (sortByCreatedDesc rest)

/-- The skip and take pagination applied after ordering. -/
def paginate (l : List Blog) (page limit : Nat) : List Blog :=
  (l.drop ((page - 1) * limit)).take limit

namespace IdApi

/-! Embedding of the id-based controller, src/src/controllers/blogController.js. -/

/-- The where clause built by getBlogs (lines 38 to 55): soft-deleted rows are
excluded and the optional tag and search filters are added; no status
condition is ever added by this variant. -/
def getBlogsWhere (q : ListQuery) (b : Blog) : Bool :=
  b.deletedAt.isNone
  && tagsCond q.tags b
  && (match q.search with
      | some s => if s = [] then true else containsCI b.title s
      | none => true)

/-- Embedding of getBlogs (lines 23 to 103): filter, order newest first,
paginate. -/
def getBlogs (db : List Blog) (q : ListQuery) : ApiOut (List Blog) :=
  .success 200 (paginate (sortByCreatedDesc (db.filter (getBlogsWhere q))) q.page q.limit)

/-- Embedding of the updateBlog pipeline (lines 257 to 350) for a request that
carries a new content file and no other change: the existing record is looked
up, the content slot is replaced through replaceBlogContent and the new locator
is committed to the row.  The source passes only four arguments to
replaceBlogContent, so the originalFilename parameter receives the mimetype of
the uploaded file and the contentType parameter is undefined, modelled as the
empty string. -/
def updateBlogContentFile (cdn bucket : Str) (db : List Blog) (st : S3State)
    (blogId : Nat) (sanitizedBuffer : Nat) (contentMimetype : Str) :
    ApiOut Blog × List Blog × S3State :=
  match dbFindById db blogId with
  | none => (.failure 404, db, st)
  | some existing =>
    if existing.deletedAt.isSome then (.failure 404, db, st)
    else
      let (st1, newContentUrl) :=
        replaceBlogContent cdn bucket st (some existing.contentUrl) sanitizedBuffer
          (natStr blogId) contentMimetype []
      let updated := { existing with contentUrl := newContentUrl }
      (.success 200 updated, dbUpdateById db blogId updated, st1)

/-- Embedding of permanentDeleteBlog (lines 396 to 432): look the record up by
id (soft-deleted rows are eligible), run the blob cleanup with the blog id and
no urls, then remove the row.  A thrown cleanup error would land in the catch
block as a 500 response; the claim theorem shows this branch is unreachable. -/
def permanentDeleteBlog (o : S3Oracle) (cdn : Str) (db : List Blog) (st : S3State)
    (blogId : Nat) : ApiOut Unit × List Blog × S3State :=
  match dbFindById db blogId with
  | none => (.failure 404, db, st)
  | some _ =>
    let st1 := deleteBlogFiles o cdn st (natStr blogId) none none
    (.success 200 (), dbDeleteById db blogId, st1)

/-- The data of the getBlogContent response (lines 555 to 569).  The cover
field carries either the stored locator passed through unchanged (when it
could not be resolved to a key) or the signed url produced for the extracted
key. -/
structure ContentPayload where
  id : Nat
  title : Str
  tags : List Str
  coverImageUrl : Option (Sum Str SignedUrl)
  readTime : Option Nat
  views : Nat
  likes : Nat
  content : Nat
deriving DecidableEq

/-- Embedding of getBlogContent (lines 496 to 578): look up by id, issue the
fire-and-forget views increment (the incrOk argument tells whether that
detached update lands), resolve the content key, fetch the content bytes from
the store, presign the cover when resolvable, and answer with a payload whose
views field is the stored value plus one.  A missing content object or a key
resolution failure is a 500, as is a thrown presigning error. -/
def getBlogContent (cdn bucket : Str) (db : List Blog) (st : S3State) (blogId : Nat)
    (incrOk : Bool) : ApiOut ContentPayload × List Blog :=
  match dbFindById db blogId with
  | none => (.failure 404, db)
  | some b =>
    if b.deletedAt.isSome then (.failure 404, db)
    else
      let db1 := if incrOk then dbIncViews db b.id else db
      let resp : ApiOut ContentPayload :=
        match extractS3Key cdn (some b.contentUrl) with
        | none => .failure 500
        | some s3Key =>
          if s3Key = [] then .failure 500
          else
            match storeGet st.store s3Key with
            | none => .failure 500
            | some htmlContent =>
              let coverOut : Except Str (Option (Sum Str SignedUrl)) :=
                match b.coverImageUrl with
                | none => .ok none
                | some cv =>
                  match extractS3Key cdn (some cv) with
                  | some ck =>
                    if ck = [] then .ok (some (.inl cv))
                    else
                      match generatePresignedUrl cdn bucket (some ck) 3600 with
                      | .ok su => .ok (some (.inr su))
                      | .error e => .error e
                  | none => .ok (some (.inl cv))
              match coverOut with
              | .error _ => .failure 500
              | .ok cov =>
                .success 200
                  ⟨b.id, b.title, b.tags, cov, b.readTime, b.views + 1, b.likes, htmlContent⟩
      (resp, db1)

end IdApi

namespace SlugApi

/-! Embedding of the slug-based controller variant shipped in the repository,
wired by the blog routes. -/

/-- The where clause built by its getBlogs (lines 29 to 58): soft-deleted rows
are excluded, the status filter defaults to published when the query-string
status is absent or empty, and the search filter also probes the summary. -/
def getBlogsWhere (q : ListQuery) (b : Blog) : Bool :=
  let status : Str :=
    match q.status with
    | some s => if s = [] then ("published").data else s
    | none => ("published").data
  b.deletedAt.isNone
  && decide (b.status = status)
  && tagsCond q.tags b
  && (match q.search with
      | some s =>
        if s = [] then true
        else
          containsCI b.title s
          || (match b.summary with
              | some sm => containsCI sm s
              | none => false)
      | none => true)

/-- Embedding of the slug-based getBlogs (lines 23 to 110). -/
def getBlogs (db : List Blog) (q : ListQuery) : ApiOut (List Blog) :=
  .success 200 (paginate (sortByCreatedDesc (db.filter (getBlogsWhere q))) q.page q.limit)

/-- Embedding of getBlogBySlug (lines 116 to 151): the record found by slug is
returned as the response data as read, and the views increment is issued
without being awaited; the incrOk argument tells whether that detached update
lands on the row. -/
def getBlogBySlug (db : List Blog) (slug : Str) (incrOk : Bool) :
    ApiOut Blog × List Blog :=
  match dbFindBySlug db slug with
  | none => (.failure 404, db)
  | some b =>
    if b.deletedAt.isSome then (.failure 404, db)
    else (.success 200 b, if incrOk then dbIncViews db b.id else db)

/-- The request body and files of a create call, after field parsing. -/
structure CreateInput where
  title : Str
  slug : Str
  authorId : Option Nat
  summary : Option Str
  tags : List Str
  readTime : Option Nat
  status : Option Str
  contentBuffer : Nat
  contentMimetype : Str
  cover : Option (Nat × Str × Str)
deriving DecidableEq

/-- Embedding of the slug-based createBlog (lines 161 to 268): the duplicate
check is a bare findUnique on the slug, with no condition on deletedAt, and a
hit answers 409 before anything is uploaded or inserted.  Otherwise the
content safety transform runs, the content is uploaded with the slug as the
key reference (the source passes the mimetype where uploadBlogContent expects
the original file name, and no content type), the optional cover is uploaded,
and the row is inserted with views and likes at their schema defaults of zero
and the status defaulting to draft. -/
def createBlog (bucket : Str) (sanitize : Nat → Nat) (db : List Blog) (st : S3State)
    (nextId now : Nat) (inp : CreateInput) : ApiOut Blog × List Blog × S3State :=
  match dbFindBySlug db inp.slug with
  | some _ => (.failure 409, db, st)
  | none =>
    let sanitizedBuffer := sanitize inp.contentBuffer
    let (st1, contentUrl) :=
      uploadBlogContent bucket st sanitizedBuffer inp.slug inp.contentMimetype []
    let (st2, coverImageUrl) :=
      match inp.cover with
      | some (buf, name, mime) =>
        let (s, u) := uploadBlogCoverImage bucket st1 buf inp.slug name mime
        (s, some u)
      | none => (st1, none)
    let blog : Blog :=
      { id := nextId, slug := inp.slug, title := inp.title, summary := inp.summary,
        tags := inp.tags, contentUrl := contentUrl, coverImageUrl := coverImageUrl,
        readTime := inp.readTime, views := 0, likes := 0,
        status := (match inp.status with | some s => s | none => ("draft").data),
        createdAt := now, deletedAt := none }
    (.success 201 blog, db ++ [blog], st2)

end SlugApi

/-! Store lemmas. -/

theorem storeGet_del_self (s : Store) (k : Str) : storeGet (storeDel s k) k = none := by
  induction s with
  | nil => rfl
  | cons p rest ih =>
    obtain ⟨k', v⟩ := p
    by_cases h : k' = k
    · simpa [storeDel, h] using ih
    · simpa [storeDel, storeGet, h] using ih

theorem storeGet_del_ne (s : Store) (k k' : Str) (h : k' ≠ k) :
    storeGet (storeDel s k) k' = storeGet s k' := by
  have h' : k ≠ k' := fun hk => h hk.symm
  induction s with
  | nil => rfl
  | cons p rest ih =>
    obtain ⟨k₀, v⟩ := p
    by_cases h0 : k₀ = k
    · subst h0
      simp [storeDel, storeGet, h', ih]
    · simp [storeDel, storeGet, h0, ih]

theorem storeGet_put_self (s : Store) (k : Str) (v : Nat) :
    storeGet (storePut s k v) k = some v := by
  simp [storePut, storeGet]

theorem storeGet_put_ne (s : Store) (k k' : Str) (v : Nat) (h : k' ≠ k) :
    storeGet (storePut s k v) k' = storeGet s k' := by
  have hne : k ≠ k' := fun hk => h hk.symm
  simp [storePut, storeGet, hne, storeGet_del_ne s k k' h]

/-- C1: in the replacement pipeline of an update supplying a new content file
whose extension differs from the current one, the old object, addressed by the
key extracted from the current content locator, is deleted after an existence
check and strictly before the new object is uploaded under the freshly derived
key; afterwards the old key is gone from the store, the new key holds the new
bytes, and the record row carries the canonical locator of the new key. -/
theorem c1_replacement_delete_before_upload
    (cdn bucket : Str) (db : List Blog) (st : S3State) (blogId : Nat)
    (buf oldVal : Nat) (mimetype : Str) (existing : Blog) (oldKey : Str)
    (hfind : dbFindById db blogId = some existing)
    (hlive : existing.deletedAt = none)
    (hx : extractKeyFromUrl cdn (some existing.contentUrl) = some oldKey)
    (hne : oldKey ≠ [])
    (hin : storeGet st.store oldKey = some oldVal)
    (hext : extname oldKey ≠ extname (("blogs/").data ++ natStr blogId ++ ['/'] ++ mimetype)) :
    (IdApi.updateBlogContentFile cdn bucket db st blogId buf mimetype).1
      = .success 200 { existing with contentUrl :=
          ("s3://").data ++ bucket ++ ['/']
            ++ (("blogs/").data ++ natStr blogId ++ ['/'] ++ mimetype) }
    ∧ (IdApi.updateBlogContentFile cdn bucket db st blogId buf mimetype).2.1
      = dbUpdateById db blogId { existing with contentUrl :=
          ("s3://").data ++ bucket ++ ['/']
            ++ (("blogs/").data ++ natStr blogId ++ ['/'] ++ mimetype) }
    ∧ (IdApi.updateBlogContentFile cdn bucket db st blogId buf mimetype).2.2.trace
      = st.trace ++ [.head oldKey, .del oldKey,
          .put (("blogs/").data ++ natStr blogId ++ ['/'] ++ mimetype)]
    ∧ storeGet (IdApi.updateBlogContentFile cdn bucket db st blogId buf mimetype).2.2.store
        oldKey = none
    ∧ storeGet (IdApi.updateBlogContentFile cdn bucket db st blogId buf mimetype).2.2.store
        (("blogs/").data ++ natStr blogId ++ ['/'] ++ mimetype) = some buf := by
  have hkne : oldKey ≠ ("blogs/").data ++ natStr blogId ++ ['/'] ++ mimetype := by
    intro h
    exact hext (by rw [h])
  simp only [IdApi.updateBlogContentFile, hfind, hlive, Option.isSome_none,
    Bool.false_eq_true, if_false, replaceBlogContent, hx, if_neg hne, fileExists,
    hin, Option.isSome_some, if_true, deleteFile, uploadBlogContent, uploadFile]
  refine ⟨by simp, by simp, by simp, ?_, ?_⟩
  · rw [storeGet_put_ne _ _ _ _ hkne, storeGet_del_self]
  · rw [storeGet_put_self]

/-! String lemmas for the key codec. -/

theorem strHasPref_append (p t : Str) : strHasPref p (p ++ t) = true := by
  induction p with
  | nil => rfl
  | cons c cs ih => simp [strHasPref, ih]

theorem drop_len_append (p t : Str) : (p ++ t).drop p.length = t := by
  induction p with
  | nil => rfl
  | cons c cs ih => simp [ih]

theorem dropThroughSlash_append (l t : Str) (h : '/' ∉ l) :
    dropThroughSlash (l ++ '/' :: t) = some t := by
  induction l with
  | nil => simp [dropThroughSlash]
  | cons c cs ih =>
    have hc : c ≠ '/' := fun hh => h (hh ▸ List.mem_cons_self c cs)
    have hcs : '/' ∉ cs := fun hh => h (List.mem_cons_of_mem c hh)
    simp [dropThroughSlash, hc, ih hcs]

theorem matchBucketSlash_append (bucket t : Str) (hb : bucket ≠ []) (hs : '/' ∉ bucket) :
    matchBucketSlash (bucket ++ '/' :: t) = some t := by
  cases bucket with
  | nil => exact absurd rfl hb
  | cons c cs =>
    have hc : c ≠ '/' := fun hh => hs (hh ▸ List.mem_cons_self c cs)
    have hcs : '/' ∉ cs := fun hh => hs (List.mem_cons_of_mem c hh)
    simp [matchBucketSlash, hc, dropThroughSlash_append cs t hcs]

theorem splitOnFirst_self_prefix (pat t : Str) (hp : pat ≠ []) :
    splitOnFirst pat (pat ++ t) = some ([], t) := by
  cases pat with
  | nil => exact absurd rfl hp
  | cons c cs =>
    have hpre := strHasPref_append (c :: cs) t
    simp only [List.cons_append] at hpre ⊢
    simp [splitOnFirst, hpre, drop_len_append]

/-- Round trip for the canonical opaque-scheme locator: extraction recovers the
key from the locator form put returns, for any bucket that is nonempty and free
of slashes. -/
theorem extract_s3_roundtrip (cdn bucket key : Str) (hb : bucket ≠ []) (hs : '/' ∉ bucket) :
    extractKeyFromUrl cdn (some (("s3://").data ++ bucket ++ ['/'] ++ key)) = some key := by
  have hasc : ("s3://").data ++ bucket ++ ['/'] ++ key
      = ("s3://").data ++ (bucket ++ '/' :: key) := by
    simp [List.append_assoc]
  rw [hasc]
  have hne : ("s3://").data ++ (bucket ++ '/' :: key) ≠ [] := List.cons_ne_nil _ _
  have hpre := strHasPref_append ("s3://").data (bucket ++ '/' :: key)
  simp only [extractKeyFromUrl, if_neg hne, hpre, if_true, Option.some.injEq]
  show s3UriReplace (("s3://").data ++ (bucket ++ '/' :: key)) = key
  have hdrop : ((("s3://").data ++ (bucket ++ '/' :: key)).drop 5) = bucket ++ '/' :: key := rfl
  simp [s3UriReplace, hdrop, matchBucketSlash_append bucket key hb hs]

/-- The provider-hosted https locator shape documented by the extraction
functions. -/
def awsHttpsLocator (bucket region key : Str) : Str :=
  ("https://").data ++ bucket ++ (".s3.").data ++ region ++ awsPat ++ key

/-- The content-delivery locator shape documented by the extraction functions:
the path after the configured base is the key. -/
def cdnLocator (cdnBase key : Str) : Str := cdnBase ++ ['/'] ++ key

/-- Side conditions under which the amazonaws regex matches the https locator
exactly at its canonical position: the pattern does not also match at an
earlier position, and the key is a nonempty run of characters the regex dot
accepts. -/
def validAwsParts (bucket region key : Str) : Prop :=
  (∀ i, i < (("https://").data ++ bucket ++ (".s3.").data ++ region).length →
    awsCapture ((awsHttpsLocator bucket region key).drop i) = none)
  ∧ key ≠ [] ∧ key.all (fun c => !isLineTerm c) = true

instance (bucket region key : Str) : Decidable (validAwsParts bucket region key) := by
  unfold validAwsParts; infer_instance

/-- The configured-CDN guard of the extraction functions evaluates to false on
the given url. -/
def cdnGuardOff (cdn url : Str) : Prop :=
  (decide (cdn ≠ []) && strHasPref cdn url) = false

instance (cdn url : Str) : Decidable (cdnGuardOff cdn url) := by
  unfold cdnGuardOff; infer_instance

/-- The url does not carry the opaque scheme. -/
def notS3Scheme (url : Str) : Prop :=
  strHasPref ("s3://").data url = false

instance (url : Str) : Decidable (notS3Scheme url) := by
  unfold notS3Scheme; infer_instance

theorem awsCapture_append (key : Str) (hk : key ≠ [])
    (hterm : key.all (fun c => !isLineTerm c) = true) :
    awsCapture (awsPat ++ key) = some key := by
  simp [awsCapture, strHasPref_append, drop_len_append, hk, hterm]

theorem awsMatchFirst_append (A key : Str)
    (hst : ∀ i, i < A.length → awsCapture ((A ++ (awsPat ++ key)).drop i) = none)
    (hk : key ≠ []) (hterm : key.all (fun c => !isLineTerm c) = true) :
    awsMatchFirst (A ++ (awsPat ++ key)) = some key := by
  induction A with
  | nil =>
    simp only [List.nil_append]
    cases h : awsPat ++ key with
    | nil =>
      have : awsPat = [] := (List.append_eq_nil.mp h).1
      exact absurd this (by decide)
    | cons c rest =>
      rw [← h]
      have hc := awsCapture_append key hk hterm
      rw [h] at hc ⊢
      simp [awsMatchFirst, hc]
  | cons c cs ih =>
    have h0 := hst 0 (by simp)
    simp only [List.drop_zero] at h0
    simp only [List.cons_append] at h0 ⊢
    simp only [awsMatchFirst, h0]
    exact ih (fun i hi => by
      have := hst (i + 1) (by simpa using Nat.succ_lt_succ hi)
      simpa using this)

/-- Round trip for the provider-hosted https locator shape. -/
theorem extract_aws_roundtrip (cdn bucket region key : Str)
    (hv : validAwsParts bucket region key)
    (hcdn : cdnGuardOff cdn (awsHttpsLocator bucket region key)) :
    extractKeyFromUrl cdn (some (awsHttpsLocator bucket region key)) = some key := by
  obtain ⟨hst, hk, hterm⟩ := hv
  have hne : awsHttpsLocator bucket region key ≠ [] := List.cons_ne_nil _ _
  have hns3 : strHasPref ("s3://").data (awsHttpsLocator bucket region key) = false := rfl
  have hasc : awsHttpsLocator bucket region key
      = (("https://").data ++ bucket ++ (".s3.").data ++ region) ++ (awsPat ++ key) := by
    simp [awsHttpsLocator, List.append_assoc]
  have hfirst : awsMatchFirst (awsHttpsLocator bucket region key) = some key := by
    rw [hasc]
    refine awsMatchFirst_append _ key (fun i hi => ?_) hk hterm
    have := hst i hi
    rwa [hasc] at this
  have hcond : ¬ ((decide (cdn ≠ []) && strHasPref cdn (awsHttpsLocator bucket region key)) = true) := by
    rw [hcdn]; simp
  simp only [extractKeyFromUrl, if_neg hne, hns3, Bool.false_eq_true, if_false, if_neg hcond]
  rw [hfirst]

/-- Round trip for the content-delivery locator shape, against the configured
base itself. -/
theorem extract_cdn_roundtrip (cdn key : Str) (hc : cdn ≠ [])
    (hns3 : notS3Scheme (cdnLocator cdn key)) :
    extractKeyFromUrl cdn (some (cdnLocator cdn key)) = some key := by
  have hasc : cdnLocator cdn key = (cdn ++ ['/']) ++ key := by
    simp [cdnLocator]
  have hne : cdnLocator cdn key ≠ [] := by
    rw [hasc]
    intro h
    have := (List.append_eq_nil.mp h).1
    have := (List.append_eq_nil.mp this).2
    simp at this
  have hpre : strHasPref cdn (cdnLocator cdn key) = true := by
    have := strHasPref_append cdn (['/'] ++ key)
    simpa [cdnLocator, List.append_assoc] using this
  have hsplit : splitOnFirst (cdn ++ ['/']) (cdnLocator cdn key) = some ([], key) := by
    rw [hasc]
    exact splitOnFirst_self_prefix (cdn ++ ['/']) key (by simp)
  have hguard : (decide (cdn ≠ []) && strHasPref cdn (cdnLocator cdn key)) = true := by
    simp [hc, hpre]
  have hns3' : strHasPref ("s3://").data (cdnLocator cdn key) = false := hns3
  simp only [extractKeyFromUrl, if_neg hne, hns3', Bool.false_eq_true, if_false,
    if_pos hguard]
  simp [replaceFirstStr, hsplit]

/-- C2: the key codec round-trips.  Extracting a key from the canonical
opaque-scheme locator returned by the upload of either slot yields back
exactly the derived key, and the same key is likewise recovered from the
provider-https and configured-CDN locator forms under their shape side
conditions. -/
theorem c2_key_codec_roundtrip
    (cdn bucket ref filename name region : Str) (st : S3State)
    (buf ibuf : Nat) (ct mt : Str)
    (hb : bucket ≠ []) (hsl : '/' ∉ bucket) :
    (extractKeyFromUrl cdn (some (uploadBlogContent bucket st buf ref filename ct).2)
      = some (("blogs/").data ++ ref ++ ['/'] ++ filename))
    ∧ (extractKeyFromUrl cdn (some (uploadBlogCoverImage bucket st ibuf ref name mt).2)
      = some (("blogs/").data ++ ref ++ ("/cover").data ++ extname name))
    ∧ (validAwsParts bucket region (("blogs/").data ++ ref ++ ['/'] ++ filename) →
      cdnGuardOff cdn (awsHttpsLocator bucket region
        (("blogs/").data ++ ref ++ ['/'] ++ filename)) →
      extractKeyFromUrl cdn (some (awsHttpsLocator bucket region
        (("blogs/").data ++ ref ++ ['/'] ++ filename)))
        = some (("blogs/").data ++ ref ++ ['/'] ++ filename))
    ∧ (validAwsParts bucket region (("blogs/").data ++ ref ++ ("/cover").data ++ extname name) →
      cdnGuardOff cdn (awsHttpsLocator bucket region
        (("blogs/").data ++ ref ++ ("/cover").data ++ extname name)) →
      extractKeyFromUrl cdn (some (awsHttpsLocator bucket region
        (("blogs/").data ++ ref ++ ("/cover").data ++ extname name)))
        = some (("blogs/").data ++ ref ++ ("/cover").data ++ extname name))
    ∧ (cdn ≠ [] →
      notS3Scheme (cdnLocator cdn (("blogs/").data ++ ref ++ ['/'] ++ filename)) →
      extractKeyFromUrl cdn (some (cdnLocator cdn
        (("blogs/").data ++ ref ++ ['/'] ++ filename)))
        = some (("blogs/").data ++ ref ++ ['/'] ++ filename))
    ∧ (cdn ≠ [] →
      notS3Scheme (cdnLocator cdn (("blogs/").data ++ ref ++ ("/cover").data ++ extname name)) →
      extractKeyFromUrl cdn (some (cdnLocator cdn
        (("blogs/").data ++ ref ++ ("/cover").data ++ extname name)))
        = some (("blogs/").data ++ ref ++ ("/cover").data ++ extname name)) := by
  refine ⟨?_, ?_, fun hv hc => extract_aws_roundtrip cdn bucket region _ hv hc,
    fun hv hc => extract_aws_roundtrip cdn bucket region _ hv hc,
    fun hc hn => extract_cdn_roundtrip cdn _ hc hn,
    fun hc hn => extract_cdn_roundtrip cdn _ hc hn⟩
  · have hl : (uploadBlogContent bucket st buf ref filename ct).2
        = ("s3://").data ++ bucket ++ ['/'] ++ (("blogs/").data ++ ref ++ ['/'] ++ filename) := rfl
    rw [hl]
    exact extract_s3_roundtrip cdn bucket _ hb hsl
  · have hl : (uploadBlogCoverImage bucket st ibuf ref name mt).2
        = ("s3://").data ++ bucket ++ ['/']
          ++ (("blogs/").data ++ ref ++ ("/cover").data ++ extname name) := rfl
    rw [hl]
    exact extract_s3_roundtrip cdn bucket _ hb hsl

/-- Witness for C2 at concrete bucket, CDN base, region, blog reference and
file names, exercising the opaque-scheme, https and CDN locator shapes. -/
theorem c2_witness :
    (extractKeyFromUrl ("https://cdn.example.com").data
      (some (uploadBlogContent ("bkt").data ⟨[], []⟩ 0 ("42").data ("guide.docx").data []).2)
      = some (("blogs/").data ++ ("42").data ++ ['/'] ++ ("guide.docx").data))
    ∧ (extractKeyFromUrl ("https://cdn.example.com").data
      (some (uploadBlogCoverImage ("bkt").data ⟨[], []⟩ 0 ("42").data ("pic.png").data []).2)
      = some (("blogs/").data ++ ("42").data ++ ("/cover").data ++ extname ("pic.png").data))
    ∧ (extractKeyFromUrl ("https://cdn.example.com").data
      (some (awsHttpsLocator ("bkt").data ("us-east-1").data
        (("blogs/").data ++ ("42").data ++ ['/'] ++ ("guide.docx").data)))
      = some (("blogs/").data ++ ("42").data ++ ['/'] ++ ("guide.docx").data))
    ∧ (extractKeyFromUrl ("https://cdn.example.com").data
      (some (cdnLocator ("https://cdn.example.com").data
        (("blogs/").data ++ ("42").data ++ ['/'] ++ ("guide.docx").data)))
      = some (("blogs/").data ++ ("42").data ++ ['/'] ++ ("guide.docx").data)) := by
  have h := c2_key_codec_roundtrip ("https://cdn.example.com").data ("bkt").data
    ("42").data ("guide.docx").data ("pic.png").data ("us-east-1").data ⟨[], []⟩
    0 0 [] [] (by decide) (by decide)
  exact ⟨h.1, h.2.1, h.2.2.1 (by decide) (by decide), h.2.2.2.2.1 (by decide) (by decide)⟩

/-- A concrete record whose content object is stored under an html key. -/
def c1Blog : Blog :=
  { id := 1, slug := ("a-guide").data, title := ("T").data, summary := none,
    tags := [], contentUrl := ("s3://b/blogs/1/content.html").data,
    coverImageUrl := none, readTime := none, views := 0, likes := 0,
    status := ("published").data, createdAt := 0, deletedAt := none }

/-- A store holding exactly the old content object of that record. -/
def c1St : S3State := { store := [(("blogs/1/content.html").data, 5)], trace := [] }

/-- Witness for C1: a concrete replacement whose new derived key differs in
extension from the old one. -/
theorem c1_witness :
    (IdApi.updateBlogContentFile [] ("b").data [c1Blog] c1St 1 9 ("text/html").data).2.2.trace
      = c1St.trace ++ [.head ("blogs/1/content.html").data,
          .del ("blogs/1/content.html").data,
          .put (("blogs/").data ++ natStr 1 ++ ['/'] ++ ("text/html").data)]
    ∧ storeGet (IdApi.updateBlogContentFile [] ("b").data [c1Blog] c1St 1 9
        ("text/html").data).2.2.store ("blogs/1/content.html").data = none
    ∧ storeGet (IdApi.updateBlogContentFile [] ("b").data [c1Blog] c1St 1 9
        ("text/html").data).2.2.store
        (("blogs/").data ++ natStr 1 ++ ['/'] ++ ("text/html").data) = some 9 := by
  have h := c1_replacement_delete_before_upload [] ("b").data [c1Blog] c1St 1 9 5
    ("text/html").data c1Blog ("blogs/1/content.html").data (by decide) rfl
    (by decide) (by decide) (by decide) (by decide)
  exact ⟨h.2.2.1, h.2.2.2.1, h.2.2.2.2⟩

/-- Counterexample to C3 as stated: the key derived for an uploaded content
file keeps the original file name, so it is not the namespace, reference and
literal content role followed by the file extension. -/
theorem c3_counterexample :
    (uploadBlogContent ("b").data ⟨[], []⟩ 0 ("1").data ("guide.docx").data []).1.trace
      = [.put ("blogs/1/guide.docx").data]
    ∧ ("blogs/1/guide.docx").data
      ≠ ("blogs/").data ++ ("1").data ++ ("/content").data ++ extname ("guide.docx").data := by
  exact ⟨rfl, by decide⟩

/-- C3 (amended): cover key derivation produces namespace, entity reference,
the literal cover role segment and the file extension of the uploaded name,
while content key derivation appends the uploader-supplied original file name
itself in place of a role segment; the returned locators are the canonical
opaque-scheme forms of those keys. -/
theorem c3_key_shapes (bucket : Str) (st : S3State) (buf ibuf : Nat)
    (ref filename name ct mt : Str) :
    (uploadBlogCoverImage bucket st ibuf ref name mt).1.trace
      = st.trace ++ [.put (("blogs/").data ++ ref ++ ("/cover").data ++ extname name)]
    ∧ (uploadBlogCoverImage bucket st ibuf ref name mt).2
      = ("s3://").data ++ bucket ++ ['/']
        ++ (("blogs/").data ++ ref ++ ("/cover").data ++ extname name)
    ∧ (uploadBlogContent bucket st buf ref filename ct).1.trace
      = st.trace ++ [.put (("blogs/").data ++ ref ++ ['/'] ++ filename)]
    ∧ (uploadBlogContent bucket st buf ref filename ct).2
      = ("s3://").data ++ bucket ++ ['/'] ++ (("blogs/").data ++ ref ++ ['/'] ++ filename) :=
  ⟨rfl, rfl, rfl, rfl⟩

/-- C4: key extraction is total and never raises: a null locator and an empty
locator yield no match, and a non-empty locator failing all three shape guards
of the source (the opaque scheme prefix, the configured CDN prefix and the
amazonaws pattern) also yields no match. -/
theorem c4_extract_total (cdn : Str) :
    extractKeyFromUrl cdn none = none
    ∧ extractKeyFromUrl cdn (some []) = none
    ∧ (∀ u : Str, u ≠ [] →
        strHasPref ("s3://").data u = false →
        (decide (cdn ≠ []) && strHasPref cdn u) = false →
        awsMatchFirst u = none →
        extractKeyFromUrl cdn (some u) = none) := by
  refine ⟨rfl, rfl, fun u hne h1 h2 h3 => ?_⟩
  have hcond : ¬ ((decide (cdn ≠ []) && strHasPref cdn u) = true) := by
    rw [h2]; simp
  simp only [extractKeyFromUrl, if_neg hne, h1, Bool.false_eq_true, if_false,
    if_neg hcond, h3]

/-- Witness for C4 on a garbage locator under a configured CDN base. -/
theorem c4_witness :
    extractKeyFromUrl ("https://cdn.example.com").data (some ("garbage").data) = none :=
  (c4_extract_total ("https://cdn.example.com").data).2.2 ("garbage").data
    (by decide) (by decide) (by decide) (by decide)

theorem mem_dbDeleteById (db : List Blog) (i : Nat) (b : Blog)
    (h : b ∈ dbDeleteById db i) : b.id ≠ i := by
  induction db with
  | nil => simp [dbDeleteById] at h
  | cons x rest ih =>
    by_cases hx : x.id = i
    · rw [dbDeleteById, if_pos hx] at h
      exact ih h
    · rw [dbDeleteById, if_neg hx] at h
      cases h with
      | head => exact hx
      | tail _ hm => exact ih hm

/-- C5: the permanent-deletion pipeline succeeds for every transport-failure
behaviour of the blob provider: the cleanup phase absorbs all failures, the
row is removed regardless of the cleanup outcome, and an unresolvable locator
in the url-guided cleanup branch is treated as nothing to clean up rather than
an error. -/
theorem c5_permanent_delete_best_effort
    (o : S3Oracle) (cdn : Str) (db : List Blog) (st : S3State) (blogId : Nat)
    (b : Blog) (hfind : dbFindById db blogId = some b) :
    (IdApi.permanentDeleteBlog o cdn db st blogId).1 = .success 200 ()
    ∧ (IdApi.permanentDeleteBlog o cdn db st blogId).2.1 = dbDeleteById db blogId
    ∧ (∀ b' ∈ (IdApi.permanentDeleteBlog o cdn db st blogId).2.1, b'.id ≠ blogId)
    ∧ (∀ url : Str, extractKeyFromUrl cdn (some url) = none →
        deleteByUrl o cdn st url = .ok st) := by
  refine ⟨?_, ?_, ?_, fun url hu => by simp [deleteByUrl, hu]⟩
  · simp [IdApi.permanentDeleteBlog, hfind]
  · simp [IdApi.permanentDeleteBlog, hfind]
  · intro b' hb'
    simp only [IdApi.permanentDeleteBlog, hfind] at hb'
    exact mem_dbDeleteById db blogId b' hb'

/-- A record whose cover locator matches no known shape. -/
def c5Blog : Blog :=
  { id := 1, slug := ("s").data, title := ("T").data, summary := none,
    tags := [], contentUrl := ("s3://b/blogs/1/content.html").data,
    coverImageUrl := some ("garbage").data, readTime := none, views := 0,
    likes := 0, status := ("published").data, createdAt := 0, deletedAt := none }

/-- A provider on which every head and delete call fails. -/
def c5Oracle : S3Oracle := ⟨fun _ => false, fun _ => false⟩

/-- Witness for C5: permanent deletion of the record with the unresolvable
cover locator, under a provider failing every cleanup call, still answers 200
and removes the row; the url-guided branch on that locator is a no-op. -/
theorem c5_witness :
    (IdApi.permanentDeleteBlog c5Oracle [] [c5Blog] ⟨[], []⟩ 1).1 = .success 200 ()
    ∧ (IdApi.permanentDeleteBlog c5Oracle [] [c5Blog] ⟨[], []⟩ 1).2.1
      = dbDeleteById [c5Blog] 1
    ∧ deleteByUrl c5Oracle [] ⟨[], []⟩ ("garbage").data = .ok ⟨[], []⟩ := by
  have h := c5_permanent_delete_best_effort c5Oracle [] [c5Blog] ⟨[], []⟩ 1 c5Blog
    (by decide)
  exact ⟨h.1, h.2.1, h.2.2.2 ("garbage").data (by decide)⟩

/-- Success test for an issuer outcome. -/
def exIsOk : Except Str SignedUrl → Bool
  | .ok _ => true
  | .error _ => false

/-- Counterexample to C7 as stated: a non-empty locator matching none of the
known key shapes does not make the issuer raise; it signs the raw string used
verbatim as the key. -/
theorem c7_counterexample :
    extractS3Key [] (some ("garbage").data) = none
    ∧ generatePresignedUrl [] ("bkt").data (some ("garbage").data) 3600
      = .ok ⟨("bkt").data, ("garbage").data, 3600⟩ := by
  exact ⟨by decide, rfl⟩

/-- C7 (amended): the issuer raises exactly when the locator is null or empty;
a non-empty locator from which no key can be extracted is used verbatim as the
object key of the signed url rather than raising. -/
theorem c7_presign_error_iff_empty (cdn bucket : Str) (u : Option Str) (exp : Nat) :
    (exIsOk (generatePresignedUrl cdn bucket u exp) = true ↔ ∃ s, u = some s ∧ s ≠ [])
    ∧ (∀ s : Str, u = some s → s ≠ [] → extractS3Key cdn u = none →
      generatePresignedUrl cdn bucket u exp = .ok ⟨bucket, s, exp⟩) := by
  constructor
  · cases u with
    | none => simp [generatePresignedUrl, exIsOk]
    | some s =>
      by_cases hs : s = []
      · subst hs
        simp [generatePresignedUrl, exIsOk]
      · simp only [generatePresignedUrl, if_neg hs]
        have hkey : (match extractS3Key cdn (some s) with
            | some k => if k = [] then s else k
            | none => s) ≠ [] := by
          cases hx : extractS3Key cdn (some s) with
          | none => simpa using hs
          | some k =>
            by_cases hk : k = [] <;> simp [hk, hs]
        rw [if_neg hkey]
        simp [exIsOk, hs]
  · intro s hu hs hx
    subst hu
    simp [generatePresignedUrl, hs, hx]

/-- Witness for C7 at a concrete non-empty unresolvable locator. -/
theorem c7_witness :
    generatePresignedUrl [] ("bkt").data (some ("garbage").data) 3600
      = .ok ⟨("bkt").data, ("garbage").data, 3600⟩ :=
  (c7_presign_error_iff_empty [] ("bkt").data (some ("garbage").data) 3600).2
    ("garbage").data rfl (by decide) (by decide)

/-- A published record with zero views whose content object is in the store. -/
def c6Blog : Blog :=
  { id := 1, slug := ("s").data, title := ("T").data, summary := none,
    tags := [], contentUrl := ("s3://b/blogs/1/content.html").data,
    coverImageUrl := none, readTime := none, views := 0, likes := 0,
    status := ("published").data, createdAt := 0, deletedAt := none }

def c6St : S3State := { store := [(("blogs/1/content.html").data, 7)], trace := [] }

/-- Counterexample to C6 as stated: the first content fetch after creation of
a record with zero stored views reports one view in its payload, not the
pre-increment value zero. -/
theorem c6_counterexample :
    (IdApi.getBlogContent [] ("b").data [c6Blog] c6St 1 true).1
      = .success 200 ⟨1, c6Blog.title, c6Blog.tags, none, none, 1, 0, 7⟩
    ∧ c6Blog.views = 0 ∧ (1 : Nat) ≠ 0 := by
  exact ⟨by decide, rfl, by decide⟩

/-- C6 (amended): the slug read path answers with the record as read, hence
the pre-increment views value, while the content read path answers with the
stored views value plus one; in both paths the response does not depend on
whether the detached increment lands, and a failed increment only leaves the
database unchanged. -/
theorem c6_views_readback
    (cdn bucket : Str) (db : List Blog) (st : S3State) (slug : Str) (blogId : Nat)
    (b : Blog) (incrOk : Bool) :
    (dbFindBySlug db slug = some b → b.deletedAt = none →
      (SlugApi.getBlogBySlug db slug incrOk).1 = .success 200 b
      ∧ (SlugApi.getBlogBySlug db slug false).2 = db)
    ∧ (dbFindById db blogId = some b → b.deletedAt = none →
      ∀ pay : IdApi.ContentPayload,
        (IdApi.getBlogContent cdn bucket db st blogId incrOk).1 = .success 200 pay →
        pay.views = b.views + 1)
    ∧ ((IdApi.getBlogContent cdn bucket db st blogId incrOk).1
      = (IdApi.getBlogContent cdn bucket db st blogId true).1) := by
  refine ⟨fun hfind hlive => ?_, fun hfind hlive pay h => ?_, ?_⟩
  · simp [SlugApi.getBlogBySlug, hfind, hlive]
  · simp only [IdApi.getBlogContent, hfind, hlive, Option.isSome_none,
      Bool.false_eq_true, if_false] at h
    cases hx : extractS3Key cdn (some b.contentUrl) with
    | none => simp [hx] at h
    | some k =>
      by_cases hk : k = []
      · simp [hx, hk] at h
      · cases hg : storeGet st.store k with
        | none => simp [hx, hk, hg] at h
        | some content =>
          cases hcv : b.coverImageUrl with
          | none =>
            simp [hx, hk, hg, hcv] at h
            rw [← h]
          | some cv =>
            cases hx2 : extractS3Key cdn (some cv) with
            | none =>
              simp [hx, hk, hg, hcv, hx2] at h
              rw [← h]
            | some ck =>
              by_cases hck : ck = []
              · simp [hx, hk, hg, hcv, hx2, hck] at h
                rw [← h]
              · cases hgen : generatePresignedUrl cdn bucket (some ck) 3600 with
                | error e => simp [hx, hk, hg, hcv, hx2, hck, hgen] at h
                | ok su =>
                  simp [hx, hk, hg, hcv, hx2, hck, hgen] at h
                  rw [← h]
  · cases hfind : dbFindById db blogId with
    | none => simp [IdApi.getBlogContent, hfind]
    | some b' =>
      by_cases hdel : b'.deletedAt.isSome
      · simp [IdApi.getBlogContent, hfind, hdel]
      · simp [IdApi.getBlogContent, hfind, hdel]

/-- Witness for C6: the slug fetch of the zero-view record reports zero views
whether or not the increment lands, and the content fetch of the same record
reports one. -/
theorem c6_witness :
    (SlugApi.getBlogBySlug [c6Blog] ("s").data true).1 = .success 200 c6Blog
    ∧ (SlugApi.getBlogBySlug [c6Blog] ("s").data false).2 = [c6Blog]
    ∧ (∀ pay : IdApi.ContentPayload,
        (IdApi.getBlogContent [] ("b").data [c6Blog] c6St 1 true).1 = .success 200 pay →
        pay.views = c6Blog.views + 1) := by
  have h1 := (c6_views_readback [] ("b").data [c6Blog] c6St ("s").data 1 c6Blog true).1
    (by decide) rfl
  have h2 := (c6_views_readback [] ("b").data [c6Blog] c6St ("s").data 1 c6Blog true).2.1
    (by decide) rfl
  exact ⟨h1.1, h1.2, h2⟩

theorem dbFindBySlug_isSome (db : List Blog) (s : Str)
    (h : ∃ b ∈ db, b.slug = s) : ∃ b', dbFindBySlug db s = some b' := by
  induction db with
  | nil => simp at h
  | cons x rest ih =>
    by_cases hx : x.slug = s
    · exact ⟨x, by simp [dbFindBySlug, hx]⟩
    · obtain ⟨b, hb, hbs⟩ := h
      cases hb with
      | head => exact absurd hbs hx
      | tail _ hm =>
        obtain ⟨b', hb'⟩ := ih ⟨b, hm, hbs⟩
        exact ⟨b', by simp [dbFindBySlug, hx, hb']⟩

/-- C8: create answers 409 whenever any row already carries the requested
slug, with no condition on deletedAt, so a soft-deleted row also blocks the
slug; nothing is uploaded and no row is inserted on that path. -/
theorem c8_duplicate_slug_rejected (bucket : Str) (san : Nat → Nat)
    (db : List Blog) (st : S3State) (nextId now : Nat) (inp : SlugApi.CreateInput)
    (b : Blog) (hb : b ∈ db) (hslug : b.slug = inp.slug) :
    (SlugApi.createBlog bucket san db st nextId now inp).1 = .failure 409
    ∧ (SlugApi.createBlog bucket san db st nextId now inp).2.1 = db
    ∧ (SlugApi.createBlog bucket san db st nextId now inp).2.2 = st := by
  obtain ⟨b', hfind⟩ := dbFindBySlug_isSome db inp.slug ⟨b, hb, hslug⟩
  refine ⟨?_, ?_, ?_⟩ <;> simp [SlugApi.createBlog, hfind]

/-- A soft-deleted record occupying a slug. -/
def c8Blog : Blog :=
  { id := 1, slug := ("dup").data, title := ("T").data, summary := none,
    tags := [], contentUrl := ("s3://b/blogs/dup/text/html").data,
    coverImageUrl := none, readTime := none, views := 0, likes := 0,
    status := ("published").data, createdAt := 0, deletedAt := some 5 }

/-- A create request for the slug held by the soft-deleted record. -/
def c8Input : SlugApi.CreateInput :=
  { title := ("New").data, slug := ("dup").data, authorId := none, summary := none,
    tags := [], readTime := none, status := none, contentBuffer := 3,
    contentMimetype := ("text/html").data, cover := none }

/-- Witness for C8: the slug occupied only by a soft-deleted row still makes
create answer 409 with the database and store untouched. -/
theorem c8_witness :
    (SlugApi.createBlog ("b").data id [c8Blog] ⟨[], []⟩ 2 9 c8Input).1 = .failure 409
    ∧ (SlugApi.createBlog ("b").data id [c8Blog] ⟨[], []⟩ 2 9 c8Input).2.1 = [c8Blog]
    ∧ (SlugApi.createBlog ("b").data id [c8Blog] ⟨[], []⟩ 2 9 c8Input).2.2 = ⟨[], []⟩ := by
  have h := c8_duplicate_slug_rejected ("b").data id [c8Blog] ⟨[], []⟩ 2 9 c8Input c8Blog
    (by simp) (by decide)
  exact h

/-! List-query membership lemmas. -/

theorem mem_insertByCreatedDesc (a b : Blog) (l : List Blog) :
    b ∈ insertByCreatedDesc a l ↔ b = a ∨ b ∈ l := by
  induction l with
  | nil => simp [insertByCreatedDesc]
  | cons c rest ih =>
    by_cases hc : a.createdAt ≤ c.createdAt
    · simp only [insertByCreatedDesc, if_pos hc, List.mem_cons, ih]
      tauto
    · simp only [insertByCreatedDesc, if_neg hc, List.mem_cons]

theorem mem_sortByCreatedDesc (b : Blog) (l : List Blog) :
    b ∈ sortByCreatedDesc l ↔ b ∈ l := by
  induction l with
  | nil => simp [sortByCreatedDesc]
  | cons c rest ih =>
    simp [sortByCreatedDesc, mem_insertByCreatedDesc, ih]

theorem mem_paginate (b : Blog) (l : List Blog) (p lim : Nat)
    (h : b ∈ paginate l p lim) : b ∈ l := by
  unfold paginate at h
  exact List.drop_subset _ _ (List.take_subset _ _ h)

/-- Counterexample to C9 as stated: in the id-based controller a list query
supplying no status filter returns a draft record, so the result is not
restricted to published records. -/
def c9Draft : Blog :=
  { id := 1, slug := ("d").data, title := ("T").data, summary := none,
    tags := [], contentUrl := ("s3://b/blogs/1/text/html").data,
    coverImageUrl := none, readTime := none, views := 0, likes := 0,
    status := ("draft").data, createdAt := 0, deletedAt := none }

/-- The default list query: no tags, no search, no status. -/
def c9Query : ListQuery :=
  { page := 1, limit := 20, tags := [], search := none, status := none }

/-- Counterexample to C9 as stated, at the id-based list endpoint. -/
theorem c9_counterexample :
    IdApi.getBlogs [c9Draft] c9Query = .success 200 [c9Draft]
    ∧ c9Draft.status ≠ ("published").data
    ∧ c9Draft.deletedAt = none := by
  exact ⟨by decide, by decide, rfl⟩

/-- C9 (amended): in the slug-based controller a list query without a status
filter returns only published, non-deleted records, and a caller-supplied
status replaces the published default but never the deletedAt condition; the
id-based controller's list filters only on deletedAt and applies no status
condition. -/
theorem c9_list_status_filtering (db : List Blog) (q : ListQuery) (b : Blog)
    (bl : List Blog) :
    (SlugApi.getBlogs db q = .success 200 bl → b ∈ bl → q.status = none →
      b.status = ("published").data ∧ b.deletedAt = none)
    ∧ (∀ s : Str, SlugApi.getBlogs db q = .success 200 bl → b ∈ bl →
      q.status = some s → s ≠ [] → b.status = s ∧ b.deletedAt = none)
    ∧ (IdApi.getBlogs db q = .success 200 bl → b ∈ bl → b.deletedAt = none) := by
  have hmem : ∀ (p : Blog → Bool), b ∈ paginate (sortByCreatedDesc (db.filter p)) q.page q.limit →
      p b = true := by
    intro p hp
    have h1 := mem_paginate b _ q.page q.limit hp
    have h2 := (mem_sortByCreatedDesc b _).mp h1
    exact List.of_mem_filter h2
  refine ⟨fun hq hb hs => ?_, fun s hq hb hs hsne => ?_, fun hq hb => ?_⟩
  · have hbl : bl = paginate (sortByCreatedDesc (db.filter (SlugApi.getBlogsWhere q)))
        q.page q.limit := by
      simpa [SlugApi.getBlogs] using hq.symm
    have hw := hmem _ (hbl ▸ hb)
    simp only [SlugApi.getBlogsWhere, hs, Bool.and_eq_true, decide_eq_true_eq,
      Option.isNone_iff_eq_none] at hw
    exact ⟨hw.1.1.2, hw.1.1.1⟩
  · have hbl : bl = paginate (sortByCreatedDesc (db.filter (SlugApi.getBlogsWhere q)))
        q.page q.limit := by
      simpa [SlugApi.getBlogs] using hq.symm
    have hw := hmem _ (hbl ▸ hb)
    simp only [SlugApi.getBlogsWhere, hs, if_neg hsne, Bool.and_eq_true,
      decide_eq_true_eq, Option.isNone_iff_eq_none] at hw
    exact ⟨hw.1.1.2, hw.1.1.1⟩
  · have hbl : bl = paginate (sortByCreatedDesc (db.filter (IdApi.getBlogsWhere q)))
        q.page q.limit := by
      simpa [IdApi.getBlogs] using hq.symm
    have hw := hmem _ (hbl ▸ hb)
    simp only [IdApi.getBlogsWhere, Bool.and_eq_true, Option.isNone_iff_eq_none] at hw
    exact hw.1.1

/-- A published, non-deleted record listed by the slug-based default query. -/
def c9Pub : Blog :=
  { id := 2, slug := ("p").data, title := ("T").data, summary := none,
    tags := [], contentUrl := ("s3://b/blogs/2/text/html").data,
    coverImageUrl := none, readTime := none, views := 0, likes := 0,
    status := ("published").data, createdAt := 1, deletedAt := none }

/-- Witness for C9: on a mixed database the slug-based default listing keeps
exactly the published live record, and every record it returns is published
and not deleted. -/
theorem c9_witness :
    SlugApi.getBlogs [c9Draft, c9Pub] c9Query = .success 200 [c9Pub]
    ∧ (c9Pub.status = ("published").data ∧ c9Pub.deletedAt = none) := by
  refine ⟨by decide, ?_⟩
  exact (c9_list_status_filtering [c9Draft, c9Pub] c9Query c9Pub [c9Pub]).1
    (by decide) (by decide) rfl

/-- C10: the two independent key extraction implementations, the one in the
presigned-url issuer and the one in the blob store adapter, agree on every
input locator and every configured CDN base. -/
theorem c10_extractors_agree :
    ∀ (cdn : Str) (url : Option Str), extractS3Key cdn url = extractKeyFromUrl cdn url :=
  fun _ _ => rfl

end BM
